import Mathlib

/-!
Verification of the pagination/retry fetch layer and the JSON-to-tabular
normalization layer of the Alpaca profile exporter (src/main.py), via a
shallow embedding of the relevant Python functions.

Modelling conventions:
  - Python JSON values are the inductive `Json`; numbers are `Int` (the
    control logic never inspects fractional parts), dicts are association
    lists in insertion order (Python dicts preserve insertion order and
    have no duplicate keys).
  - Python truthiness is `Json.truthy`.
  - Fallible Python operations (TypeError / AttributeError paths, and the
    implicit `return None` fallthrough of `_robust_get`) are modelled with
    `Option` or an explicit outcome constructor.
  - HTTP is replaced by an oracle: `_robust_get` takes the response for
    each attempt index; the pagination collector takes a function from
    query parameters to the (successful) response of the resilient
    fetcher, and additionally returns the list of parameter mappings of
    the fetches it issued, in order, plus a flag that is true when the
    loop exited by one of its own stop conditions (fuel models the
    unbounded `while True`).
-/

/-- A JSON value as manipulated by the Python source: dicts are
insertion-ordered association lists, numbers are integers. -/
inductive Json where
  | null : Json
  | bool : Bool → Json
  | num : Int → Json
  | str : String → Json
  | arr : List Json → Json
  | obj : List (String × Json) → Json

/-- Python truthiness of a JSON value (`bool(x)`). -/
def Json.truthy : Json → Bool
  | .null => false
  | .bool b => b
  | .num n => decide (n ≠ 0)
  | .str s => decide (s ≠ "")
  | .arr xs => !xs.isEmpty
  | .obj kvs => !kvs.isEmpty

/-- Models `isinstance(x, list)`. -/
def Json.isArr : Json → Bool
  | .arr _ => true
  | _ => false

/-- Models `isinstance(x, dict)`. -/
def Json.isObj : Json → Bool
  | .obj _ => true
  | _ => false

/-- Dict lookup (`d[k]` / `k in d`): first binding of the key. -/
def lookupJ : List (String × Json) → String → Option Json
  | [], _ => none
  | (k2, v) :: rest, k => if k2 = k then some v else lookupJ rest k

/-- Models `d.get(k)`: absent keys give Python `None`, modelled as `Json.null`. -/
def getJ (kvs : List (String × Json)) (k : String) : Json :=
  (lookupJ kvs k).getD .null

/-- Python `a or b` on JSON values. -/
def jOr (a b : Json) : Json :=
  if a.truthy then a else b

/-- Query parameter mapping, insertion ordered like a Python dict. -/
abbrev Params := List (String × Json)

/-- Models `params[k] = v`: overwrite the first binding in place, else append,
matching Python dict assignment. -/
def setParam : Params → String → Json → Params
  | [], k, v => [(k, v)]
  | (k2, v2) :: rest, k, v =>
    if k2 = k then (k, v) :: rest else (k2, v2) :: setParam rest k v

/-- An HTTP response as seen by the source: status code, header mapping,
decoded JSON body (`r.json()`). -/
structure Response where
  status : Nat
  headers : List (String × String)
  body : Json

/-- Header lookup (`r.headers.get(k)`), mapped into `Json` so that Python
string truthiness (empty string falsy) is `Json.truthy`. -/
def headerGetJ (hs : List (String × String)) (k : String) : Json :=
  match hs.lookup k with
  | some s => .str s
  | none => .null

/-- The outcome of `_robust_get`: a returned response, an exception from
`raise_for_status`, or the implicit `return None` after the `for` loop
exhausts all five attempts on 429s. -/
inductive FetchOutcome where
  | ok : Response → FetchOutcome
  | httpError : Nat → FetchOutcome
  | noneFallthrough : FetchOutcome

/-- The retry loop of `_robust_get` (src/main.py lines 123-130), over an
oracle giving the response of each attempt index. Returns the outcome,
the cumulative `time.sleep` duration, and the number of GET requests
issued. `raise_for_status` raises exactly for statuses in [400, 600). -/
def robustGetLoop (resp : Nat → Response) : Nat → Nat → Nat → FetchOutcome × Nat × Nat
  | 0, _, slept => (.noneFallthrough, slept, 0)
  | rem + 1, attempt, slept =>
    let r := resp attempt
    if r.status = 429 then
      let out := robustGetLoop resp rem (attempt + 1) (slept + (1 + attempt))
      (out.1, out.2.1, out.2.2 + 1)
    else if 400 ≤ r.status ∧ r.status < 600 then
      (.httpError r.status, slept, 1)
    else
      (.ok r, slept, 1)

/-- Models `_robust_get`: `for attempt in range(5)` starting with no sleep. -/
def robust_get (resp : Nat → Response) : FetchOutcome × Nat × Nat :=
  robustGetLoop resp 5 0 0

/-- Total sleep of `j` consecutive 429 retries starting at a given
attempt index: `(1 + attempt) + (1 + attempt + 1) + ...`. -/
def sleepSum : Nat → Nat → Nat
  | _, 0 => 0
  | attempt, j + 1 => (1 + attempt) + sleepSum (attempt + 1) j

/-- Mock server that returns 429 on every attempt. -/
def respAll429 : Nat → Response := fun _ => ⟨429, [], .null⟩

/-- Mock server returning 429 three times, then 200. -/
def resp429x3then200 : Nat → Response :=
  fun k => if k < 3 then ⟨429, [], .null⟩ else ⟨200, [], .null⟩

/-- First list-typed value among a list of JSON values, in order; equals
`list_values[0]` of the comprehension
`[v for v in data.values() if isinstance(v, list)]` when that
comprehension is nonempty (and is `none` exactly when it is empty). -/
def firstList : List Json → Option (List Json)
  | [] => none
  | .arr xs :: _ => some xs
  | _ :: rest => firstList rest

/-- Item extraction of `collect_with_pagination` (src/main.py lines
141-159): the batch of items the page body contributes, or `none` when
the body is neither list nor dict, in which case the loop breaks without
adding items. -/
def extractBatch : Json → Option (List Json)
  | .arr xs => some xs
  | .obj kvs =>
    match lookupJ kvs "orders" with
    | some (.arr xs) => some xs
    | _ =>
      match lookupJ kvs "activities" with
      | some (.arr xs) => some xs
      | _ =>
        match firstList (kvs.map Prod.snd) with
        | some xs => some xs
        | none => some [.obj kvs]
  | _ => none

/-- Next-page token resolution (src/main.py lines 166-172): body field
`next_page_token` or `next_page_id` when the body is a dict; when the
result so far is falsy, header `x-next-page-token` or header
`next_page_token`. -/
def nextToken (data : Json) (hs : List (String × String)) : Json :=
  let t : Json :=
    match data with
    | .obj kvs => jOr (getJ kvs "next_page_token") (getJ kvs "next_page_id")
    | _ => .null
  if t.truthy then t
  else jOr (headerGetJ hs "x-next-page-token") (headerGetJ hs "next_page_token")

/-- Next-page token of a whole response. -/
def nextTokenOf (r : Response) : Json :=
  nextToken r.body r.headers

/-- The `while True` loop of `collect_with_pagination` (src/main.py lines
137-178), with fuel standing for the unbounded loop. `fetch` maps the
current query parameters to the response `_robust_get` produced. The
result is (accumulated items, parameter mappings of the fetches issued in
order, flag that the loop stopped by its own stop conditions rather than
by running out of fuel). `hardLimit = none` models `hard_limit=None`;
Python truthiness of the limit is `hardLimit.getD 0 ≠ 0`. -/
def collectLoop (fetch : Params → Response) (hardLimit : Option Nat) :
    Nat → List Json → Params → List Json × List Params × Bool
  | 0, items, _ => (items, [], false)
  | fuel + 1, items, params =>
    let r := fetch params
    match extractBatch r.body with
    | none => (items, [params], true)
    | some xs =>
      let acc := items ++ xs
      if hardLimit.getD 0 ≠ 0 ∧ hardLimit.getD 0 ≤ acc.length then
        (acc.take (hardLimit.getD 0), [params], true)
      else
        let tok := nextTokenOf r
        if tok.truthy then
          let out := collectLoop fetch hardLimit fuel acc
            (setParam params "page_token" tok)
          (out.1, params :: out.2.1, out.2.2)
        else
          (acc, [params], true)

/-- Models `collect_with_pagination` (src/main.py lines 133-179): starts from a
copy of the initial parameters and an empty accumulator. -/
def collect_with_pagination (fetch : Params → Response) (initialParams : Params)
    (hardLimit : Option Nat) (fuel : Nat) : List Json × List Params × Bool :=
  collectLoop fetch hardLimit fuel [] initialParams

/-- Items of the two-page mock of the spec. -/
def itm1 : Json := .obj [("id", .num 1)]

/-- Second mock item. -/
def itm2 : Json := .obj [("id", .num 2)]

/-- Third mock item. -/
def itm3 : Json := .obj [("id", .num 3)]

/-- Page 1 of the two-page mock: two orders plus a next-page token. -/
def mockPage1 : Response :=
  ⟨200, [], .obj [("orders", .arr [itm1, itm2]), ("next_page_token", .str "abc")]⟩

/-- Page 2 of the two-page mock: one order, no token. -/
def mockPage2 : Response :=
  ⟨200, [], .obj [("orders", .arr [itm3])]⟩

/-- Initial query parameters used by the mocks. -/
def mockParams0 : Params := [("status", .str "all")]

/-- The two-page mock server: serves page 2 exactly when the query
carries `page_token=abc`, else page 1. -/
def mockFetch2 (params : Params) : Response :=
  match lookupJ params "page_token" with
  | some (.str s) => if s = "abc" then mockPage2 else mockPage1
  | _ => mockPage1

/-- A second page whose body is a scalar (neither list nor dict). -/
def mockPageBad : Response := ⟨200, [], .str "oops"⟩

/-- Mock server whose second page is malformed. -/
def mockFetchBad (params : Params) : Response :=
  match lookupJ params "page_token" with
  | some (.str s) => if s = "abc" then mockPageBad else mockPage1
  | _ => mockPage1

/-- Proleptic Gregorian date of a day count since 1970-01-01 (the civil
calendar computation underlying `datetime.fromtimestamp` with a UTC
timezone): year, month, day. -/
def civilFromDays (z0 : Int) : Int × Nat × Nat :=
  let z := z0 + 719468
  let era := z.fdiv 146097
  let doe := (z - era * 146097).toNat
  let yoe := (doe - doe / 1460 + doe / 36524 - doe / 146096) / 365
  let y := (yoe : Int) + era * 400
  let doy := doe - (365 * yoe + yoe / 4 - yoe / 100)
  let mp := (5 * doy + 2) / 153
  let d := doy - (153 * mp + 2) / 5 + 1
  let m := if mp < 10 then mp + 3 else mp - 9
  (if m ≤ 2 then y + 1 else y, m, d)

/-- Two-digit zero padding. -/
def pad2 (n : Nat) : String :=
  if n < 10 then "0" ++ toString n else toString n

/-- Four-digit zero padding. -/
def pad4 (n : Nat) : String :=
  if n < 10 then "000" ++ toString n
  else if n < 100 then "00" ++ toString n
  else if n < 1000 then "0" ++ toString n
  else toString n

/-- Models `datetime.fromtimestamp(t, tz=timezone.utc).isoformat()` for an
integral epoch-second timestamp: ISO-8601 with the UTC offset. -/
def isoUtcOfEpoch (t : Int) : String :=
  let days := t.fdiv 86400
  let secs := (t - days * 86400).toNat
  let c := civilFromDays days
  pad4 c.1.toNat ++ "-" ++ pad2 c.2.1 ++ "-" ++ pad2 c.2.2 ++ "T" ++
    pad2 (secs / 3600) ++ ":" ++ pad2 (secs % 3600 / 60) ++ ":" ++
    pad2 (secs % 60) ++ "+00:00"

/-- Python `x or []` as used on the four field values of
`normalize_portfolio_history_to_rows`: falsy values are replaced by the
empty list. -/
def pyOrEmpty (j : Json) : Json :=
  if j.truthy then j else .arr []

/-- Models `len(x)` for the values the source applies it to; lengths of truthy
non-list values (where CPython would raise a TypeError for the numeric
payloads these fields carry) are out of the modelled domain. -/
def pyLen : Json → Option Nat
  | .arr xs => some xs.length
  | _ => none

/-- Models `x[i]` on a list value, only consulted under `i < len(x)`. -/
def pyIndexD : Json → Nat → Json
  | .arr xs, i => xs.getD i .null
  | _, _ => .null

/-- One appended row of `normalize_portfolio_history_to_rows` (src/main.py
lines 248-256); requires the raw timestamp to be numeric for
`datetime.fromtimestamp`. -/
def mkPhRow (tsv eqv plv plpv base tf : Json) : Option Json :=
  match tsv with
  | .num n => some (.obj
      [("timestamp", tsv),
       ("datetime_utc", .str (isoUtcOfEpoch n)),
       ("equity", eqv),
       ("profit_loss", plv),
       ("profit_loss_pct", plpv),
       ("base_value", base),
       ("timeframe", tf)])
  | _ => none

/-- The `for i in range(len(ts))` loop of
`normalize_portfolio_history_to_rows`, recursing over the timestamp list
with the running index; the per-iteration `len` of the other three
fields is evaluated inside the loop, as in the source. -/
def buildRowsGo (eqj plj plpj base tf : Json) : Nat → List Json → Option (List Json)
  | _, [] => some []
  | i, tsv :: rest =>
    match pyLen eqj, pyLen plj, pyLen plpj with
    | some eqLen, some plLen, some plpLen =>
      let eqv := if i < eqLen then pyIndexD eqj i else .null
      let plv := if i < plLen then pyIndexD plj i else .null
      let plpv := if i < plpLen then pyIndexD plpj i else .null
      match mkPhRow tsv eqv plv plpv base tf,
        buildRowsGo eqj plj plpj base tf (i + 1) rest with
      | some row, some rows => some (row :: rows)
      | _, _ => none
    | _, _, _ => none

/-- Models `normalize_portfolio_history_to_rows` (src/main.py lines 234-257).
`none` marks inputs on which CPython raises (timestamp value truthy but
not a list, or non-numeric entries). -/
def normalize_portfolio_history_to_rows (ph : Json) : Option (List Json) :=
  match ph with
  | .obj kvs =>
    match lookupJ kvs "timestamp" with
    | none => some []
    | some _ =>
      match pyOrEmpty (getJ kvs "timestamp") with
      | .arr ts =>
        buildRowsGo (pyOrEmpty (getJ kvs "equity"))
          (pyOrEmpty (getJ kvs "profit_loss"))
          (pyOrEmpty (getJ kvs "profit_loss_pct"))
          (getJ kvs "base_value") (getJ kvs "timeframe") 0 ts
      | _ => none
  | _ => some []

/-- Field access on the i-th row of a row list. -/
def rowGet (rs : List Json) (i : Nat) (k : String) : Json :=
  match rs.getD i .null with
  | .obj kvs => getJ kvs k
  | _ => .null

/-- Keys of a dict, in insertion order. -/
def keysOf (kvs : List (String × Json)) : List String :=
  kvs.map Prod.fst

/-- Models `sorted(all_keys)` of `_save_csv` (src/main.py lines 112-115): the
lexicographically sorted union of the key sets of a batch of dicts. -/
def fieldnamesOf (ds : List (List (String × Json))) : List String :=
  List.insertionSort (· ≤ ·) ((ds.map keysOf).flatten).dedup

/-- One CSV row of `_save_csv` (src/main.py line 120):
`{k: it.get(k, None) for k in fieldnames}` in fieldname order. -/
def recordOf (fns : List String) (kvs : List (String × Json)) :
    List (String × Json) :=
  fns.map (fun k => (k, getJ kvs k))

/-- All CSV rows of a batch, against the batch-wide field union. -/
def mkRecords (ds : List (List (String × Json))) :
    List (List (String × Json)) :=
  ds.map (recordOf (fieldnamesOf ds))

/-- Models `it.keys()`: it requires a dict; anything else raises AttributeError. -/
def objOf : Json → Option (List (String × Json))
  | .obj kvs => some kvs
  | _ => none

/-- All batch elements as dicts, or `none` at the first non-dict. -/
def objsOfAll : List Json → Option (List (List (String × Json)))
  | [] => some []
  | x :: rest =>
    match objOf x, objsOfAll rest with
    | some d, some ds => some (d :: ds)
    | _, _ => none

/-- The record-construction part of `_save_csv` (src/main.py lines
102-120): a dict becomes a one-element batch, an empty input produces no
records, and a list becomes one record per dict with the sorted field
union; `none` marks inputs on which CPython raises. -/
def save_csv_records (items : Json) : Option (List (List (String × Json))) :=
  match items with
  | .obj kvs => some (mkRecords [kvs])
  | .arr xs =>
    match objsOfAll xs with
    | some ds => some (mkRecords ds)
    | none => none
  | j => if j.truthy then none else some []

/-- The portfolio-history input of the test vector of the specification. -/
def phKvs0 : List (String × Json) :=
  [("timestamp", .arr [.num 1700000000, .num 1700003600]),
   ("equity", .arr [.num 100]),
   ("profit_loss", .arr []),
   ("profit_loss_pct", .arr [.num 1, .num 2]),
   ("base_value", .num 100),
   ("timeframe", .str "1D")]

/-- The rows the normalizer computes on that input. -/
def phRows0 : List Json :=
  (normalize_portfolio_history_to_rows (.obj phKvs0)).getD []

theorem robustGetLoop_attempts_le (resp : Nat → Response) :
    ∀ rem attempt slept, (robustGetLoop resp rem attempt slept).2.2 ≤ rem := by
  intro rem
  induction rem with
  | zero => intro attempt slept; simp [robustGetLoop]
  | succ n ih =>
    intro attempt slept
    simp only [robustGetLoop]
    split
    · exact Nat.succ_le_succ (ih _ _)
    · split <;> simp

theorem robustGetLoop_run (resp : Nat → Response) :
    ∀ j rem attempt slept, j < rem →
    (∀ k, k < j → (resp (attempt + k)).status = 429) →
    (resp (attempt + j)).status ≠ 429 →
    robustGetLoop resp rem attempt slept =
      (if 400 ≤ (resp (attempt + j)).status ∧ (resp (attempt + j)).status < 600
        then (FetchOutcome.httpError (resp (attempt + j)).status,
              slept + sleepSum attempt j, j + 1)
        else (FetchOutcome.ok (resp (attempt + j)),
              slept + sleepSum attempt j, j + 1)) := by
  intro j
  induction j with
  | zero =>
    intro rem attempt slept hrem h429 hne
    obtain ⟨rem2, rfl⟩ : ∃ m, rem = m + 1 :=
      ⟨rem - 1, by omega⟩
    simp only [Nat.add_zero] at hne
    simp only [robustGetLoop, sleepSum, Nat.add_zero, if_neg hne]
  | succ j ih =>
    intro rem attempt slept hrem h429 hne
    obtain ⟨rem2, rfl⟩ : ∃ m, rem = m + 1 :=
      ⟨rem - 1, by omega⟩
    have h0 : (resp attempt).status = 429 := by
      have := h429 0 (by omega)
      simpa using this
    have hshift : attempt + (j + 1) = attempt + 1 + j := by omega
    have ih2 := ih rem2 (attempt + 1) (slept + (1 + attempt)) (by omega)
      (fun k hk => by
        have := h429 (k + 1) (by omega)
        have hx : attempt + (k + 1) = attempt + 1 + k := by omega
        rwa [hx] at this)
      (by rwa [hshift] at hne)
    simp only [robustGetLoop, if_pos h0, ih2, sleepSum, hshift]
    split <;> simp [Nat.add_assoc]

/-- Claim C4: with all five attempts answered by HTTP 429, the source
of `_robust_get` exhausts its loop and implicitly returns Python `None`
after sleeping 1+2+3+4+5 = 15 time-units, instead of failing with the
distinct `RateLimitExhausted` error the specification mandates. -/
theorem c4_all_429_falls_through_to_none :
    robust_get respAll429 = (.noneFallthrough, 15, 5) := rfl

/-- Claim C5: `_robust_get` issues at most 5 attempts; when the first
`j` attempts are answered 429 and attempt `j` is answered with a
success status, it returns that response unchanged after sleeping
`(1+0) + ... + (1+(j-1))` time-units; when attempt `j` instead carries
any other non-success status it fails at once with an HTTP error
without further retries. -/
theorem c5_robust_get_retry_behavior (resp : Nat → Response) :
    (robust_get resp).2.2 ≤ 5 ∧
    (∀ j, j < 5 → (∀ k, k < j → (resp k).status = 429) →
      (resp j).status ≠ 429 →
      ¬(400 ≤ (resp j).status ∧ (resp j).status < 600) →
      robust_get resp = (.ok (resp j), sleepSum 0 j, j + 1)) ∧
    (∀ j, j < 5 → (∀ k, k < j → (resp k).status = 429) →
      (resp j).status ≠ 429 →
      400 ≤ (resp j).status ∧ (resp j).status < 600 →
      robust_get resp = (.httpError (resp j).status, sleepSum 0 j, j + 1)) := by
  refine ⟨robustGetLoop_attempts_le resp 5 0 0, ?_, ?_⟩
  · intro j hj h429 hne hns
    have h := robustGetLoop_run resp j 5 0 0 hj
      (fun k hk => by simpa using h429 k hk)
      (by simpa using hne)
    simp only [Nat.zero_add] at h
    rw [robust_get, h, if_neg hns]
  · intro j hj h429 hne hs
    have h := robustGetLoop_run resp j 5 0 0 hj
      (fun k hk => by simpa using h429 k hk)
      (by simpa using hne)
    simp only [Nat.zero_add] at h
    rw [robust_get, h, if_pos hs]

/-- Witness for claim C5 at the mock of the specification: three 429
responses then a 200 succeed on the fourth attempt with cumulative
sleep 6 = 1 + 2 + 3. -/
theorem c5_witness :
    robust_get resp429x3then200 = (.ok (resp429x3then200 3), sleepSum 0 3, 3 + 1) ∧
    1 + 2 + 3 ≤ sleepSum 0 3 :=
  ⟨(c5_robust_get_retry_behavior resp429x3then200).2.1 3 (by decide)
      (by decide) (by decide) (by decide),
    by decide⟩

theorem collectLoop_length_le (fetch : Params → Response) (n : Nat) (hn : 0 < n) :
    ∀ fuel items params, items.length ≤ n →
    (collectLoop fetch (some n) fuel items params).1.length ≤ n := by
  intro fuel
  induction fuel with
  | zero => intro items params h; simpa [collectLoop] using h
  | succ f ih =>
    intro items params h
    simp only [collectLoop, Option.getD_some]
    split
    · simpa using h
    · next xs heq =>
      split
      · next hc => simp [List.length_take]
      · next hc =>
        have hlt : (items ++ xs).length < n := by
          push_neg at hc
          exact hc (by omega)
        split
        · exact ih _ _ (Nat.le_of_lt hlt)
        · simpa using Nat.le_of_lt hlt

theorem collectLoop_truncates (fetch : Params → Response) (n : Nat) (hn : 0 < n) :
    ∀ fuel items params xs,
    extractBatch (fetch params).body = some xs →
    n ≤ (items ++ xs).length →
    collectLoop fetch (some n) (fuel + 1) items params =
      ((items ++ xs).take n, [params], true) := by
  intro fuel items params xs heq hle
  simp only [collectLoop, Option.getD_some, heq]
  rw [if_pos ⟨by omega, hle⟩]

/-- Claim C1: with a nonzero hard limit the collector never returns more
than the limit; moreover, whenever appending a page batch makes the
accumulator reach or exceed the limit, the loop returns the accumulator
truncated to exactly the limit and stops with that page as its last
fetch. -/
theorem c1_hard_limit (fetch : Params → Response) (n : Nat) (hn : 0 < n) :
    (∀ fuel params,
      (collect_with_pagination fetch params (some n) fuel).1.length ≤ n) ∧
    (∀ fuel items params xs,
      extractBatch (fetch params).body = some xs →
      n ≤ (items ++ xs).length →
      collectLoop fetch (some n) (fuel + 1) items params =
        ((items ++ xs).take n, [params], true) ∧
      ((items ++ xs).take n).length = n) := by
  refine ⟨fun fuel params => collectLoop_length_le fetch n hn fuel [] params (by simp),
    fun fuel items params xs heq hle =>
      ⟨collectLoop_truncates fetch n hn fuel items params xs heq hle, ?_⟩⟩
  rw [List.length_take]
  omega

/-- Witness for claim C1 at the mock of the specification: with
`hard_limit = 2` and a first page of two orders plus a next-page token,
exactly the two items are returned and the fetch log has a single
entry. -/
theorem c1_witness :
    (collect_with_pagination mockFetch2 mockParams0 (some 2) 10).1.length ≤ 2 ∧
    collectLoop mockFetch2 (some 2) 10 [] mockParams0 =
      (([] ++ [itm1, itm2]).take 2, [mockParams0], true) :=
  ⟨(c1_hard_limit mockFetch2 2 (by decide)).1 10 mockParams0,
    ((c1_hard_limit mockFetch2 2 (by decide)).2 9 [] mockParams0 [itm1, itm2]
      rfl (by decide)).1⟩

/-- Claim C10: a hard limit of 0 is falsy in Python, so the limit check
is skipped and the collector behaves exactly as with no limit at all. -/
theorem c10_zero_limit_is_no_limit (fetch : Params → Response) :
    (∀ fuel items params,
      collectLoop fetch (some 0) fuel items params =
        collectLoop fetch none fuel items params) ∧
    (∀ fuel params,
      collect_with_pagination fetch params (some 0) fuel =
        collect_with_pagination fetch params none fuel) := by
  have main : ∀ fuel items params,
      collectLoop fetch (some 0) fuel items params =
        collectLoop fetch none fuel items params := by
    intro fuel
    induction fuel with
    | zero => intro items params; rfl
    | succ f ih =>
      intro items params
      simp only [collectLoop, Option.getD_some, Option.getD_none]
      split
      · rfl
      · simp [ih]
  exact ⟨main, fun fuel params => main fuel [] params⟩

theorem lookupJ_mem_values :
    ∀ (kvs : List (String × Json)) (k : String) (v : Json),
    lookupJ kvs k = some v → v ∈ kvs.map Prod.snd := by
  intro kvs k v
  induction kvs with
  | nil => simp [lookupJ]
  | cons p rest ih =>
    obtain ⟨k2, v2⟩ := p
    simp only [lookupJ]
    split
    · intro h
      cases h
      simp
    · intro h
      simp [ih h]

theorem firstList_none_no_arr :
    ∀ (l : List Json), firstList l = none → ∀ v ∈ l, v.isArr = false := by
  intro l
  induction l with
  | nil => simp
  | cons x rest ih =>
    intro h v hv
    have hx : x.isArr = false ∧ firstList (x :: rest) = firstList rest := by
      cases x <;>
        first
        | exact ⟨rfl, rfl⟩
        | (exfalso; simp [firstList] at h)
    rcases List.mem_cons.mp hv with rfl | hv2
    · exact hx.1
    · exact ih (hx.2 ▸ h) v hv2

theorem collectLoop_stop_on_none (fetch : Params → Response)
    (hl : Option Nat) (fuel : Nat) (items : List Json) (params : Params)
    (h : extractBatch (fetch params).body = none) :
    collectLoop fetch hl (fuel + 1) items params = (items, [params], true) := by
  simp [collectLoop, h]

/-- Claim C2: the extraction precedence of the collector: a list body is
used directly; else a list under key `orders`; else a list under key
`activities`; else the first list-typed value of the dict in insertion
order; else the whole dict as a single-item batch; any other body shape
makes the loop stop at once without adding items. -/
theorem c2_extraction_precedence :
    (∀ xs, extractBatch (.arr xs) = some xs) ∧
    (∀ kvs xs, lookupJ kvs "orders" = some (.arr xs) →
      extractBatch (.obj kvs) = some xs) ∧
    (∀ kvs xs, (∀ v, lookupJ kvs "orders" = some v → v.isArr = false) →
      lookupJ kvs "activities" = some (.arr xs) →
      extractBatch (.obj kvs) = some xs) ∧
    (∀ kvs xs, (∀ v, lookupJ kvs "orders" = some v → v.isArr = false) →
      (∀ v, lookupJ kvs "activities" = some v → v.isArr = false) →
      firstList (kvs.map Prod.snd) = some xs →
      extractBatch (.obj kvs) = some xs) ∧
    (∀ kvs, firstList (kvs.map Prod.snd) = none →
      extractBatch (.obj kvs) = some [.obj kvs]) ∧
    (∀ j, j.isArr = false → j.isObj = false → extractBatch j = none) ∧
    (∀ fetch hl fuel items params, extractBatch (fetch params).body = none →
      collectLoop fetch hl (fuel + 1) items params = (items, [params], true)) := by
  have fallOrders : ∀ (kvs : List (String × Json)),
      (∀ v, lookupJ kvs "orders" = some v → v.isArr = false) →
      ∀ m, (match lookupJ kvs "orders" with
            | some (.arr xs) => some xs
            | _ => m) = m := by
    intro kvs ho m
    rcases hx : lookupJ kvs "orders" with _ | v
    · rfl
    · have hv := ho v hx
      cases v <;> simp_all [Json.isArr]
  have fallActivities : ∀ (kvs : List (String × Json)),
      (∀ v, lookupJ kvs "activities" = some v → v.isArr = false) →
      ∀ m, (match lookupJ kvs "activities" with
            | some (.arr xs) => some xs
            | _ => m) = m := by
    intro kvs ha m
    rcases hx : lookupJ kvs "activities" with _ | v
    · rfl
    · have hv := ha v hx
      cases v <;> simp_all [Json.isArr]
  refine ⟨fun xs => rfl, ?_, ?_, ?_, ?_, ?_,
    fun fetch hl fuel items params h =>
      collectLoop_stop_on_none fetch hl fuel items params h⟩
  · intro kvs xs h
    simp [extractBatch, h]
  · intro kvs xs ho ha
    show (match lookupJ kvs "orders" with
          | some (.arr ys) => some ys
          | _ => match lookupJ kvs "activities" with
            | some (.arr ys) => some ys
            | _ => match firstList (kvs.map Prod.snd) with
              | some ys => some ys
              | none => some [.obj kvs]) = some xs
    rw [fallOrders kvs ho, ha]
  · intro kvs xs ho ha hf
    show (match lookupJ kvs "orders" with
          | some (.arr ys) => some ys
          | _ => match lookupJ kvs "activities" with
            | some (.arr ys) => some ys
            | _ => match firstList (kvs.map Prod.snd) with
              | some ys => some ys
              | none => some [.obj kvs]) = some xs
    rw [fallOrders kvs ho, fallActivities kvs ha, hf]
  · intro kvs hf
    have hno : ∀ v ∈ kvs.map Prod.snd, v.isArr = false :=
      firstList_none_no_arr _ hf
    have ho : ∀ v, lookupJ kvs "orders" = some v → v.isArr = false :=
      fun v hv => hno v (lookupJ_mem_values kvs "orders" v hv)
    have ha : ∀ v, lookupJ kvs "activities" = some v → v.isArr = false :=
      fun v hv => hno v (lookupJ_mem_values kvs "activities" v hv)
    show (match lookupJ kvs "orders" with
          | some (.arr ys) => some ys
          | _ => match lookupJ kvs "activities" with
            | some (.arr ys) => some ys
            | _ => match firstList (kvs.map Prod.snd) with
              | some ys => some ys
              | none => some [.obj kvs]) = some [.obj kvs]
    rw [fallOrders kvs ho, fallActivities kvs ha, hf]
  · intro j h1 h2
    cases j <;> simp_all [Json.isArr, Json.isObj, extractBatch]

/-- Witness for claim C2: a dict with a list under `orders` extracts
that list. -/
theorem c2_witness :
    extractBatch (.obj [("orders", .arr [itm1])]) = some [itm1] :=
  c2_extraction_precedence.2.1 [("orders", .arr [itm1])] [itm1] rfl

/-- Claim C6: a page body that is neither list nor dict makes the
collector stop at once, returning the previously accumulated items as a
partial result rather than raising; on a two-page mock whose second page
is a scalar, the items of page one are returned. -/
theorem c6_malformed_body_partial_result :
    (∀ fetch hl fuel items params,
      (fetch params).body.isArr = false → (fetch params).body.isObj = false →
      collectLoop fetch hl (fuel + 1) items params = (items, [params], true)) ∧
    collect_with_pagination mockFetchBad mockParams0 none 10 =
      ([itm1, itm2],
        [mockParams0, setParam mockParams0 "page_token" (.str "abc")],
        true) := by
  constructor
  · intro fetch hl fuel items params h1 h2
    apply collectLoop_stop_on_none
    rcases hb : (fetch params).body <;> simp_all [Json.isArr, Json.isObj, extractBatch]
  · rfl

/-- Witness for claim C6: the stop-on-malformed clause applied on the
second page of the mock. -/
theorem c6_witness :
    collectLoop mockFetchBad none 3 [itm1, itm2]
        (setParam mockParams0 "page_token" (.str "abc")) =
      ([itm1, itm2], [setParam mockParams0 "page_token" (.str "abc")], true) :=
  c6_malformed_body_partial_result.1 mockFetchBad none 2 [itm1, itm2]
    (setParam mockParams0 "page_token" (.str "abc")) rfl rfl

/-- Claim C3: the next-page token prefers body field `next_page_token`,
then body field `next_page_id`, then header `x-next-page-token`, then
header `next_page_token`; a truthy token makes the loop set `page_token`
and fetch again, a falsy one stops it; and the two-page mock of the
specification yields all items of both pages in order with exactly two
fetches, the second carrying `page_token = abc`. -/
theorem c3_next_token_preference :
    (∀ kvs hs, (getJ kvs "next_page_token").truthy = true →
      nextToken (.obj kvs) hs = getJ kvs "next_page_token") ∧
    (∀ kvs hs, (getJ kvs "next_page_token").truthy = false →
      (getJ kvs "next_page_id").truthy = true →
      nextToken (.obj kvs) hs = getJ kvs "next_page_id") ∧
    (∀ kvs hs, (getJ kvs "next_page_token").truthy = false →
      (getJ kvs "next_page_id").truthy = false →
      (headerGetJ hs "x-next-page-token").truthy = true →
      nextToken (.obj kvs) hs = headerGetJ hs "x-next-page-token") ∧
    (∀ kvs hs, (getJ kvs "next_page_token").truthy = false →
      (getJ kvs "next_page_id").truthy = false →
      (headerGetJ hs "x-next-page-token").truthy = false →
      nextToken (.obj kvs) hs = headerGetJ hs "next_page_token") ∧
    (∀ fetch fuel items params xs,
      extractBatch (fetch params).body = some xs →
      (nextTokenOf (fetch params)).truthy = true →
      collectLoop fetch none (fuel + 1) items params =
        ((collectLoop fetch none fuel (items ++ xs)
            (setParam params "page_token" (nextTokenOf (fetch params)))).1,
          params :: (collectLoop fetch none fuel (items ++ xs)
            (setParam params "page_token" (nextTokenOf (fetch params)))).2.1,
          (collectLoop fetch none fuel (items ++ xs)
            (setParam params "page_token" (nextTokenOf (fetch params)))).2.2)) ∧
    (∀ fetch fuel items params xs,
      extractBatch (fetch params).body = some xs →
      (nextTokenOf (fetch params)).truthy = false →
      collectLoop fetch none (fuel + 1) items params =
        (items ++ xs, [params], true)) ∧
    collect_with_pagination mockFetch2 mockParams0 none 10 =
      ([itm1, itm2, itm3],
        [mockParams0, setParam mockParams0 "page_token" (.str "abc")],
        true) := by
  refine ⟨?_, ?_, ?_, ?_, ?_, ?_, rfl⟩
  · intro kvs hs h
    simp [nextToken, jOr, h]
  · intro kvs hs h1 h2
    simp [nextToken, jOr, h1, h2]
  · intro kvs hs h1 h2 h3
    simp [nextToken, jOr, h1, h2, h3]
  · intro kvs hs h1 h2 h3
    simp [nextToken, jOr, h1, h2, h3]
  · intro fetch fuel items params xs hx ht
    simp [collectLoop, hx, ht]
  · intro fetch fuel items params xs hx ht
    simp [collectLoop, hx, ht]

/-- Witness for claim C3: a body token wins over everything else. -/
theorem c3_witness :
    nextToken (.obj [("next_page_token", .str "tok")])
        [("x-next-page-token", "other")] =
      getJ [("next_page_token", .str "tok")] "next_page_token" :=
  c3_next_token_preference.1 [("next_page_token", .str "tok")]
    [("x-next-page-token", "other")] rfl

theorem lookupJ_setParam_same :
    ∀ (ps : Params) (k : String) (v : Json),
    lookupJ (setParam ps k v) k = some v := by
  intro ps k v
  induction ps with
  | nil => simp [setParam, lookupJ]
  | cons p rest ih =>
    obtain ⟨k2, v2⟩ := p
    simp only [setParam]
    split
    · simp [lookupJ]
    · next hne => simp [lookupJ, hne, ih]

theorem lookupJ_setParam_other :
    ∀ (ps : Params) (k k2 : String) (v : Json), k2 ≠ k →
    lookupJ (setParam ps k v) k2 = lookupJ ps k2 := by
  intro ps k k2 v hne
  induction ps with
  | nil =>
    simp only [setParam, lookupJ]
    rw [if_neg (fun h => hne h.symm)]
  | cons p rest ih =>
    obtain ⟨k3, v3⟩ := p
    simp only [setParam]
    split
    · next heq =>
      subst heq
      simp only [lookupJ]
      rw [if_neg (fun h => hne h.symm), if_neg (fun h => hne h.symm)]
    · simp [lookupJ, ih]

theorem collectLoop_log_head (fetch : Params → Response) (hl : Option Nat) :
    ∀ fuel items params,
    (collectLoop fetch hl (fuel + 1) items params).2.1.head? = some params := by
  intro fuel items params
  simp only [collectLoop]
  split
  · rfl
  · split
    · rfl
    · split <;> rfl

theorem collectLoop_log_step (fetch : Params → Response) (hl : Option Nat) :
    ∀ fuel items params i p q,
    (collectLoop fetch hl fuel items params).2.1.get? i = some p →
    (collectLoop fetch hl fuel items params).2.1.get? (i + 1) = some q →
    q = setParam p "page_token" (nextTokenOf (fetch p)) := by
  intro fuel
  induction fuel with
  | zero =>
    intro items params i p q h1 h2
    simp [collectLoop] at h1
  | succ f ih =>
    intro items params i p q h1 h2
    rcases hx : extractBatch (fetch params).body with _ | xs
    · have hlog : (collectLoop fetch hl (f + 1) items params).2.1 = [params] := by
        simp [collectLoop, hx]
      rw [hlog] at h2
      simp at h2
    · by_cases hc : hl.getD 0 ≠ 0 ∧ hl.getD 0 ≤ (items ++ xs).length
      · have hlog : (collectLoop fetch hl (f + 1) items params).2.1 = [params] := by
          simp only [collectLoop, hx]
          rw [if_pos hc]
        rw [hlog] at h2
        simp at h2
      · by_cases ht : (nextTokenOf (fetch params)).truthy = true
        · have hlog : (collectLoop fetch hl (f + 1) items params).2.1 =
              params :: (collectLoop fetch hl f (items ++ xs)
                (setParam params "page_token" (nextTokenOf (fetch params)))).2.1 := by
            simp only [collectLoop, hx]
            rw [if_neg hc, if_pos ht]
          rw [hlog] at h1 h2
          cases i with
          | zero =>
            have hp : p = params := by
              rw [List.get?_cons_zero] at h1
              exact (Option.some.injEq _ _).mp h1.symm
            rw [List.get?_cons_succ] at h2
            cases f with
            | zero => simp [collectLoop] at h2
            | succ f2 =>
              have hh := collectLoop_log_head fetch hl f2 (items ++ xs)
                (setParam params "page_token" (nextTokenOf (fetch params)))
              rw [← List.get?_zero, h2] at hh
              subst hp
              exact (Option.some.injEq _ _).mp hh
          | succ i2 =>
            rw [List.get?_cons_succ] at h1 h2
            exact ih _ _ i2 p q h1 h2
        · have hlog : (collectLoop fetch hl (f + 1) items params).2.1 = [params] := by
            simp only [collectLoop, hx]
            rw [if_neg hc, if_neg ht]
          rw [hlog] at h2
          simp at h2

/-- Claim C9: the collector works on copies of the parameter mapping
(the embedding is by value, matching the `dict(...)` copies of the
source); the first fetch uses exactly the initial parameters, every
later fetch uses the previous parameters with only `page_token`
rewritten to the token of the previous page, and rewriting `page_token`
changes no other key. -/
theorem c9_params_frame (fetch : Params → Response) (hl : Option Nat) :
    (∀ fuel params,
      (collect_with_pagination fetch params hl (fuel + 1)).2.1.head? = some params) ∧
    (∀ fuel params i p q,
      (collect_with_pagination fetch params hl fuel).2.1.get? i = some p →
      (collect_with_pagination fetch params hl fuel).2.1.get? (i + 1) = some q →
      q = setParam p "page_token" (nextTokenOf (fetch p))) ∧
    (∀ ps v, lookupJ (setParam ps "page_token" v) "page_token" = some v) ∧
    (∀ ps k v, k ≠ "page_token" →
      lookupJ (setParam ps "page_token" v) k = lookupJ ps k) :=
  ⟨fun fuel params => collectLoop_log_head fetch hl fuel [] params,
    fun fuel params i p q h1 h2 => collectLoop_log_step fetch hl fuel [] params i p q h1 h2,
    fun ps v => lookupJ_setParam_same ps "page_token" v,
    fun ps k v hk => lookupJ_setParam_other ps "page_token" k v hk⟩

/-- Witness for claim C9 on the two-page mock: the parameters of the second fetch equal those of the first with `page_token` set from the token of page one. -/
theorem c9_witness :
    setParam mockParams0 "page_token" (.str "abc") =
      setParam mockParams0 "page_token" (nextTokenOf (mockFetch2 mockParams0)) :=
  (c9_params_frame mockFetch2 none).2.1 10 mockParams0 0 mockParams0
    (setParam mockParams0 "page_token" (.str "abc")) rfl rfl

theorem pyIndexD_if (l : List Json) (i : Nat) :
    (if i < l.length then pyIndexD (.arr l) i else .null) = l.getD i .null := by
  split
  · rfl
  · rw [List.getD_eq_default]
    omega

theorem buildRowsGo_spec (eqs pls plps : List Json) (base tf : Json) :
    ∀ (ts : List Json) (i : Nat) (rs : List Json),
    buildRowsGo (.arr eqs) (.arr pls) (.arr plps) base tf i ts = some rs →
    rs.length = ts.length ∧
    ∀ j, j < ts.length →
      rowGet rs j "timestamp" = ts.getD j .null ∧
      rowGet rs j "equity" = eqs.getD (i + j) .null ∧
      rowGet rs j "profit_loss" = pls.getD (i + j) .null ∧
      rowGet rs j "profit_loss_pct" = plps.getD (i + j) .null ∧
      rowGet rs j "base_value" = base ∧
      rowGet rs j "timeframe" = tf ∧
      (∀ n, ts.getD j .null = .num n →
        rowGet rs j "datetime_utc" = .str (isoUtcOfEpoch n)) := by
  intro ts
  induction ts with
  | nil =>
    intro i rs h
    simp only [buildRowsGo] at h
    cases h
    simp
  | cons tsv rest ih =>
    intro i rs h
    simp only [buildRowsGo, pyLen] at h
    rcases tsv with _ | b | n | s | a | o
    case num =>
      simp only [mkPhRow] at h
      rcases hrec : buildRowsGo (.arr eqs) (.arr pls) (.arr plps) base tf (i + 1) rest
        with _ | rows
      · rw [hrec] at h
        simp at h
      · rw [hrec] at h
        simp only [Option.some.injEq] at h
        obtain ⟨hlen, hrest⟩ := ih (i + 1) rows hrec
        subst h
        refine ⟨by simp [hlen], ?_⟩
        intro j hj
        cases j with
        | zero =>
          refine ⟨rfl, ?_, ?_, ?_, ?_, ?_, ?_⟩
          · show (if i < eqs.length then pyIndexD (.arr eqs) i else .null) =
              eqs.getD (i + 0) .null
            rw [pyIndexD_if, Nat.add_zero]
          · show (if i < pls.length then pyIndexD (.arr pls) i else .null) =
              pls.getD (i + 0) .null
            rw [pyIndexD_if, Nat.add_zero]
          · show (if i < plps.length then pyIndexD (.arr plps) i else .null) =
              plps.getD (i + 0) .null
            rw [pyIndexD_if, Nat.add_zero]
          · rfl
          · rfl
          · intro n2 hn2
            have : n = n2 := by
              simpa [Json.num.injEq] using hn2
            subst this
            rfl
        | succ j2 =>
          have hj2 : j2 < rest.length := by
            simpa using hj
          have hx := hrest j2 hj2
          have hadd : i + 1 + j2 = i + (j2 + 1) := by omega
          rw [hadd] at hx
          exact hx
    all_goals
      simp only [mkPhRow] at h
      rcases buildRowsGo (.arr eqs) (.arr pls) (.arr plps) base tf (i + 1) rest
        with _ | rows <;> simp at h

/-- Claim C7: the portfolio-history normalizer returns no rows when the
input is not a dict or lacks a `timestamp` key; otherwise it returns one
row per timestamp entry, zipping `equity`, `profit_loss` and
`profit_loss_pct` by index with null beyond the length of each array, copying
`base_value` and `timeframe` unchanged into every row, and deriving
`datetime_utc` from the numeric timestamp as the ISO-8601 UTC string. -/
theorem c7_normalize_portfolio_history :
    (∀ j : Json, j.isObj = false →
      normalize_portfolio_history_to_rows j = some []) ∧
    (∀ kvs, lookupJ kvs "timestamp" = none →
      normalize_portfolio_history_to_rows (.obj kvs) = some []) ∧
    (∀ kvs t ts eqs pls plps rs,
      lookupJ kvs "timestamp" = some t →
      pyOrEmpty (getJ kvs "timestamp") = .arr ts →
      pyOrEmpty (getJ kvs "equity") = .arr eqs →
      pyOrEmpty (getJ kvs "profit_loss") = .arr pls →
      pyOrEmpty (getJ kvs "profit_loss_pct") = .arr plps →
      normalize_portfolio_history_to_rows (.obj kvs) = some rs →
      rs.length = ts.length ∧
      ∀ j, j < ts.length →
        rowGet rs j "timestamp" = ts.getD j .null ∧
        rowGet rs j "equity" = eqs.getD j .null ∧
        rowGet rs j "profit_loss" = pls.getD j .null ∧
        rowGet rs j "profit_loss_pct" = plps.getD j .null ∧
        rowGet rs j "base_value" = getJ kvs "base_value" ∧
        rowGet rs j "timeframe" = getJ kvs "timeframe" ∧
        (∀ n, ts.getD j .null = .num n →
          rowGet rs j "datetime_utc" = .str (isoUtcOfEpoch n))) := by
  refine ⟨?_, ?_, ?_⟩
  · intro j h
    rcases j <;> first
      | rfl
      | simp [Json.isObj] at h
  · intro kvs h
    simp [normalize_portfolio_history_to_rows, h]
  · intro kvs t ts eqs pls plps rs h1 h2 h3 h4 h5 h6
    simp only [normalize_portfolio_history_to_rows, h1, h2, h3, h4, h5] at h6
    have hs := buildRowsGo_spec eqs pls plps (getJ kvs "base_value")
      (getJ kvs "timeframe") ts 0 rs h6
    refine ⟨hs.1, fun j hj => ?_⟩
    have hx := hs.2 j hj
    simpa [Nat.zero_add] using hx

/-- Witness for claim C7 at the test vector of the specification: two rows,
with nulls filling the short and empty arrays, scalar fields copied, and
the derived UTC datetime of epoch 1700000000. -/
theorem c7_witness :
    phRows0.length = 2 ∧
    rowGet phRows0 0 "equity" = .num 100 ∧
    rowGet phRows0 1 "equity" = .null ∧
    rowGet phRows0 0 "profit_loss" = .null ∧
    rowGet phRows0 1 "profit_loss" = .null ∧
    rowGet phRows0 0 "profit_loss_pct" = .num 1 ∧
    rowGet phRows0 1 "profit_loss_pct" = .num 2 ∧
    rowGet phRows0 0 "base_value" = .num 100 ∧
    rowGet phRows0 0 "timeframe" = .str "1D" ∧
    rowGet phRows0 0 "datetime_utc" = .str (isoUtcOfEpoch 1700000000) := by
  have h := c7_normalize_portfolio_history.2.2 phKvs0
    (.arr [.num 1700000000, .num 1700003600])
    [.num 1700000000, .num 1700003600] [.num 100] [] [.num 1, .num 2] phRows0
    rfl rfl rfl rfl rfl rfl
  have h0 := h.2 0 (by decide)
  have h1 := h.2 1 (by decide)
  exact ⟨h.1, h0.2.1, h1.2.1, h0.2.2.1, h1.2.2.1, h0.2.2.2.1, h1.2.2.2.1,
    h0.2.2.2.2.1, h0.2.2.2.2.2.1, h0.2.2.2.2.2.2 1700000000 rfl⟩

theorem lookupJ_recordOf (kvs : List (String × Json)) (k : String) :
    ∀ fns, lookupJ (recordOf fns kvs) k =
      if k ∈ fns then some (getJ kvs k) else none := by
  intro fns
  induction fns with
  | nil => simp [recordOf, lookupJ]
  | cons f fs ih =>
    simp only [recordOf, List.map_cons, lookupJ]
    by_cases hf : f = k
    · subst hf
      simp
    · rw [if_neg hf]
      show lookupJ (recordOf fs kvs) k = _
      rw [ih]
      by_cases hm : k ∈ fs
      · rw [if_pos hm, if_pos (List.mem_cons_of_mem f hm)]
      · rw [if_neg hm, if_neg (by
          simp only [List.mem_cons]
          push_neg
          exact ⟨fun h => hf h.symm, hm⟩)]

theorem keysOf_recordOf (fns : List String) (kvs : List (String × Json)) :
    keysOf (recordOf fns kvs) = fns := by
  induction fns with
  | nil => rfl
  | cons f fs ih =>
    show f :: keysOf (recordOf fs kvs) = f :: fs
    rw [ih]

theorem lookupJ_eq_none_of_not_mem (kvs : List (String × Json)) (k : String) :
    k ∉ keysOf kvs → lookupJ kvs k = none := by
  induction kvs with
  | nil => intro h; rfl
  | cons p rest ih =>
    obtain ⟨k2, v2⟩ := p
    intro h
    simp only [keysOf, List.map_cons, List.mem_cons] at h
    push_neg at h
    simp only [lookupJ]
    rw [if_neg (fun he => h.1 he.symm)]
    exact ih (by simpa [keysOf] using h.2)

theorem mem_fieldnamesOf (ds : List (List (String × Json))) (k : String) :
    k ∈ fieldnamesOf ds ↔ ∃ d ∈ ds, k ∈ keysOf d := by
  rw [fieldnamesOf, (List.perm_insertionSort _ _).mem_iff, List.mem_dedup]
  simp [List.mem_flatten]

theorem objsOfAll_map (ds : List (List (String × Json))) :
    objsOfAll (ds.map Json.obj) = some ds := by
  induction ds with
  | nil => rfl
  | cons d rest ih => simp [objsOfAll, objOf, ih]

theorem getD_map_lt {α β : Type} (f : α → β) (l : List α) (i : Nat)
    (d : α) (d2 : β) (h : i < l.length) :
    (l.map f).getD i d2 = f (l.getD i d) := by
  rcases hx : l.get? i with _ | a
  · rw [List.get?_eq_none] at hx
    omega
  · have h1 : (l.map f).getD i d2 = ((l.map f).get? i).getD d2 := rfl
    have h2 : l.getD i d = (l.get? i).getD d := rfl
    rw [h1, h2, List.get?_map, hx]
    rfl

/-- Claim C8: the CSV record construction of `_save_csv`: an empty list
yields zero records; a single dict yields exactly one record with the
same key set and the same value at every key; a nonempty list of dicts
yields one record per dict whose key list is the lexicographically
sorted, duplicate-free union of the keys of all dicts, with null at every
key the dict lacks. -/
theorem c8_to_records :
    save_csv_records (.arr []) = some [] ∧
    (∀ kvs, save_csv_records (.obj kvs) =
        some [recordOf (fieldnamesOf [kvs]) kvs] ∧
      (∀ k, getJ (recordOf (fieldnamesOf [kvs]) kvs) k = getJ kvs k) ∧
      (∀ k, k ∈ keysOf (recordOf (fieldnamesOf [kvs]) kvs) ↔ k ∈ keysOf kvs)) ∧
    (∀ ds, ds ≠ [] →
      save_csv_records (.arr (ds.map Json.obj)) = some (mkRecords ds) ∧
      (mkRecords ds).length = ds.length ∧
      List.Sorted (· ≤ ·) (fieldnamesOf ds) ∧
      (fieldnamesOf ds).Nodup ∧
      (∀ k, k ∈ fieldnamesOf ds ↔ ∃ d ∈ ds, k ∈ keysOf d) ∧
      (∀ i, i < ds.length →
        keysOf ((mkRecords ds).getD i []) = fieldnamesOf ds ∧
        (∀ k, getJ ((mkRecords ds).getD i []) k =
          if k ∈ fieldnamesOf ds then getJ (ds.getD i []) k else .null))) := by
  refine ⟨rfl, ?_, ?_⟩
  · intro kvs
    refine ⟨rfl, ?_, ?_⟩
    · intro k
      by_cases hm : k ∈ fieldnamesOf [kvs]
      · simp [getJ, lookupJ_recordOf, hm]
      · have hk : k ∉ keysOf kvs := fun hk2 =>
          hm ((mem_fieldnamesOf [kvs] k).mpr ⟨kvs, by simp, hk2⟩)
        simp [getJ, lookupJ_recordOf, hm, lookupJ_eq_none_of_not_mem kvs k hk]
    · intro k
      rw [keysOf_recordOf, mem_fieldnamesOf]
      simp
  · intro ds hds
    refine ⟨?_, by simp [mkRecords], List.sorted_insertionSort _ _,
      ((List.perm_insertionSort _ _).nodup_iff).mpr (List.nodup_dedup _),
      fun k => mem_fieldnamesOf ds k, ?_⟩
    · simp [save_csv_records, objsOfAll_map]
    · intro i hi
      have hrec : (mkRecords ds).getD i [] =
          recordOf (fieldnamesOf ds) (ds.getD i []) :=
        getD_map_lt (recordOf (fieldnamesOf ds)) ds i [] [] hi
      rw [hrec, keysOf_recordOf]
      refine ⟨rfl, fun k => ?_⟩
      rw [getJ, lookupJ_recordOf]
      split
      · rfl
      · rfl

/-- Witness for claim C8 on a two-dict batch. -/
theorem c8_witness :
    save_csv_records
        (.arr ([[("b", Json.num 1)], [("a", Json.num 2)]].map Json.obj)) =
      some (mkRecords [[("b", Json.num 1)], [("a", Json.num 2)]]) ∧
    (mkRecords [[("b", Json.num 1)], [("a", Json.num 2)]]).length =
      [[("b", Json.num 1)], [("a", Json.num 2)]].length := by
  have h := c8_to_records.2.2 [[("b", Json.num 1)], [("a", Json.num 2)]]
    (List.cons_ne_nil _ _)
  exact ⟨h.1, h.2.1⟩
